import Mathlib

/-!
Verification of the thornode swap-service core against its specification.

This file shallowly embeds the parts of the Go sources that the checked
properties are about: the memo parser (`ParseMemo`), the pool-unit issuance
math (`calculatePoolUnits`), the vault manager (genesis setup, fund
migration in `EndBlock`), the yggdrasil-return handler, and the keygen
store accessor (`GetKeygens`).  Monetary values (`sdk.Uint`, 256-bit
unsigned) are embedded as `Nat`; block heights (`int64`) as `Int` with
Go's truncated division and remainder (`Int.tdiv`, `Int.tmod`).
-/

namespace Thornode

/-- `common.One` : the fixed base unit, `10^8` per whole unit. -/
def One : Nat := 100000000

/-! ### String helpers

Structurally recursive equivalents of `strings.ToLower`, `strings.ToUpper`
and `strings.Split` (the Lean core versions recurse on byte positions,
which blocks definitional evaluation inside proofs).  All strings the
parser distinguishes are ASCII. -/

/-- `strings.ToLower` (ASCII). -/
def strToLower (s : String) : String := ⟨s.data.map Char.toLower⟩

/-- `strings.ToUpper` (ASCII). -/
def strToUpper (s : String) : String := ⟨s.data.map Char.toUpper⟩

/-- Split a character list at every occurrence of the separator, keeping
empty segments, as Go `strings.Split` does for a one-character separator. -/
def splitOnChar (sep : Char) : List Char → List (List Char)
  | [] => [[]]
  | c :: cs =>
      if c = sep then [] :: splitOnChar sep cs
      else
        match splitOnChar sep cs with
        | [] => [[c]]
        | h :: t => (c :: h) :: t

/-- `strings.Split(s, sep)` for a one-character separator. -/
def strSplitOn (s : String) (sep : Char) : List String :=
  (splitOnChar sep s.data).map String.mk

/-! ### Memo parser (source: `ParseMemo` and its helpers) -/

/-- The memo action kinds, mirroring the Go `TxType` constants
(`txUnknown` is the zero value, `iota` order preserved). -/
inductive TxType where
  | txUnknown
  | txStake
  | txUnstake
  | txSwap
  | txOutbound
  | txAdd
  | txGas
  | txBond
  | txLeave
  | txYggdrasilFund
  | txYggdrasilReturn
  | txReserve
  | txRefund
  | txMigrate
  | txRagnarok
  deriving DecidableEq

/-- The alias table `stringToTxTypeMap` from the source, key for key. -/
def stringToTxTypeMap : List (String × TxType) :=
  [("stake", .txStake), ("st", .txStake), ("+", .txStake),
   ("withdraw", .txUnstake), ("unstake", .txUnstake), ("wd", .txUnstake),
   ("-", .txUnstake),
   ("swap", .txSwap), ("s", .txSwap), ("=", .txSwap),
   ("outbound", .txOutbound),
   ("add", .txAdd), ("a", .txAdd), ("%", .txAdd),
   ("gas", .txGas), ("g", .txGas), ("$", .txGas),
   ("bond", .txBond),
   ("leave", .txLeave),
   ("yggdrasil+", .txYggdrasilFund),
   ("yggdrasil-", .txYggdrasilReturn),
   ("reserve", .txReserve),
   ("refund", .txRefund),
   ("migrate", .txMigrate),
   ("ragnarok", .txRagnarok)]

/-- The `txToStringMap` of the source (`txUnknown` maps to the Go map's
zero value, the empty string). -/
def txToString : TxType → String
  | .txUnknown => ""
  | .txStake => "stake"
  | .txUnstake => "unstake"
  | .txSwap => "swap"
  | .txOutbound => "outbound"
  | .txRefund => "refund"
  | .txAdd => "add"
  | .txGas => "gas"
  | .txBond => "bond"
  | .txLeave => "leave"
  | .txYggdrasilFund => "yggdrasil+"
  | .txYggdrasilReturn => "yggdrasil-"
  | .txReserve => "reserve"
  | .txMigrate => "migrate"
  | .txRagnarok => "ragnarok"

/-- `stringToTxType` : case-insensitive lookup in the alias table. -/
def stringToTxType (s : String) : Except String TxType :=
  match stringToTxTypeMap.lookup (strToLower s) with
  | some t => Except.ok t
  | none => Except.error ("invalid tx type: " ++ s)

/-- `common.Asset` : `{chain, symbol, ticker}` (spec section 3). -/
structure Asset where
  chain : String
  symbol : String
  ticker : String
  deriving DecidableEq

/-- The Go zero value of `common.Asset`. -/
def Asset.empty : Asset := ⟨"", "", ""⟩

instance : Inhabited Asset := ⟨Asset.empty⟩

/-- Modelled from the spec: `common.NewAsset` is absent from `src/`.
Per the spec (section 3 and the memo grammar) an asset literal is
`CHAIN.SYMBOL` or a bare `SYMBOL` whose chain defaults to BNB; an empty
literal is invalid.  The ticker refinement of the symbol is irrelevant to
the claims and is kept equal to the symbol. -/
def NewAsset (s : String) : Except String Asset :=
  match strSplitOn s '.' with
  | [sym] =>
      if sym.data.isEmpty then Except.error "asset cannot be empty"
      else Except.ok ⟨"BNB", strToUpper sym, strToUpper sym⟩
  | [c, sym] =>
      if c.data.isEmpty || sym.data.isEmpty then Except.error "invalid asset"
      else Except.ok ⟨strToUpper c, strToUpper sym, strToUpper sym⟩
  | _ => Except.error "invalid asset"

/-- `common.Address` : chain-tagged opaque string (spec section 3). -/
structure Address where
  value : String
  deriving DecidableEq

/-- `common.NoAddress` : the empty-address sentinel. -/
def NoAddress : Address := ⟨""⟩

/-- Modelled from the spec: `common.NewAddress` is absent from `src/`.
Addresses are validated opaque strings; the only validation the claims
depend on is that an address is nonempty. -/
def NewAddress (s : String) : Except String Address :=
  if s.data.isEmpty then Except.error "address cannot be empty"
  else Except.ok ⟨s⟩

/-- Modelled from the spec: `common.NewTxID` is absent from `src/`.
Tx ids are validated opaque strings (nonempty, no colons). -/
def NewTxID (s : String) : Except String String :=
  if s.data.isEmpty then Except.error "tx id cannot be empty"
  else Except.ok s

/-- Modelled from the spec: `sdk.AccAddressFromBech32` is external.
Node addresses are validated native bech32 strings, modelled as nonempty
opaque strings. -/
def AccAddressFromBech32 (s : String) : Except String String :=
  if s.data.isEmpty then Except.error (s ++ " is an invalid thorchain address")
  else Except.ok s

/-- Modelled from the spec: `sdk.ParseUint` parses a decimal digit string
into the unsigned monetary type `U`. -/
def sdkParseUint (s : String) : Except String Nat :=
  if !s.data.isEmpty && s.data.all Char.isDigit then
    Except.ok (s.data.foldl (fun n c => 10 * n + (c.toNat - 48)) 0)
  else Except.error ("invalid uint: " ++ s)

/-- Modelled from the spec: `strconv.ParseInt` on base-10 strings with an
optional leading minus sign. -/
def parseInt64 (s : String) : Except String Int :=
  match s.data with
  | '-' :: rest =>
      (match sdkParseUint ⟨rest⟩ with
       | Except.ok n => Except.ok (-(n : Int))
       | Except.error e => Except.error e)
  | _ =>
      (match sdkParseUint s with
       | Except.ok n => Except.ok (n : Int)
       | Except.error e => Except.error e)

/-- `MaxUnstakeBasisPoints = 10000` (spec section 6 constants; the Go
constant is defined outside `src/`). -/
def MaxUnstakeBasisPoints : Nat := 10000

/-- `MemoBase` : the fields shared by all memo structs. -/
structure MemoBase where
  txType : TxType
  asset : Asset
  deriving DecidableEq

/-- The memo values `ParseMemo` can return, one constructor per Go memo
struct, each carrying its `MemoBase` plus its specific fields. -/
inductive Memo where
  | gas (base : MemoBase)
  | leave (base : MemoBase)
  | add (base : MemoBase)
  | stake (base : MemoBase) (address : Address)
  | unstake (base : MemoBase) (amount : String)
  | swap (base : MemoBase) (destination : Address) (slipLimit : Nat)
  | outbound (base : MemoBase) (txId : String)
  | refund (base : MemoBase) (txId : String)
  | bond (base : MemoBase) (nodeAddress : String)
  | yggdrasilFund (base : MemoBase)
  | yggdrasilReturn (base : MemoBase)
  | reserve (base : MemoBase)
  | migrate (base : MemoBase) (blockHeight : Int)
  | ragnarok (base : MemoBase) (blockHeight : Int)
  deriving DecidableEq

/-- The embedded `MemoBase` of a memo. -/
def Memo.base : Memo → MemoBase
  | .gas b => b
  | .leave b => b
  | .add b => b
  | .stake b _ => b
  | .unstake b _ => b
  | .swap b _ _ => b
  | .outbound b _ => b
  | .refund b _ => b
  | .bond b _ => b
  | .yggdrasilFund b => b
  | .yggdrasilReturn b => b
  | .reserve b => b
  | .migrate b _ => b
  | .ragnarok b _ => b

/-- `MemoBase.GetType` lifted to memos. -/
def Memo.getType (m : Memo) : TxType := m.base.txType

/-- The `noAssetMemos` list of `ParseMemo` : memo types that carry no
asset in their memo string. -/
def noAssetMemos : List TxType :=
  [.txGas, .txOutbound, .txBond, .txLeave, .txRefund,
   .txYggdrasilFund, .txYggdrasilReturn, .txReserve,
   .txMigrate, .txRagnarok]

/-- The body of `ParseMemo` after `strings.Split(memo, ":")` : everything
the source does with the colon-separated fields. -/
def ParseMemoParts (parts : List String) : Except String Memo := do
  let tx ← stringToTxType (parts.headD "")
  let hasAsset := !(noAssetMemos.contains tx)
  let asset ←
    if hasAsset then
      if parts.length < 2 then
        throw ("cannot parse given memo: length " ++ toString parts.length)
      else NewAsset (parts.getD 1 "")
    else pure Asset.empty
  match tx with
  | .txGas => pure (.gas ⟨.txGas, Asset.empty⟩)
  | .txLeave => pure (.leave ⟨.txLeave, Asset.empty⟩)
  | .txAdd => pure (.add ⟨.txAdd, asset⟩)
  | .txStake =>
      if asset.chain == "BNB" then
        pure (.stake ⟨.txStake, asset⟩ NoAddress)
      else if parts.length < 3 then
        throw "invalid stake. Cannot stake to a non BNB-based pool without providing an associated address"
      else do
        let addr ← NewAddress (parts.getD 2 "")
        pure (.stake ⟨.txStake, asset⟩ addr)
  | .txUnstake =>
      if parts.length < 2 then
        throw "invalid unstake memo"
      else if parts.length > 2 then do
        let withdrawAmount := parts.getD 2 ""
        let wa ← sdkParseUint withdrawAmount
        if !(wa > 0) || wa > MaxUnstakeBasisPoints then
          throw ("withdraw amount :" ++ withdrawAmount ++ " is invalid")
        else
          pure (.unstake ⟨.txUnstake, asset⟩ withdrawAmount)
      else
        pure (.unstake ⟨.txUnstake, asset⟩ "")
  | .txSwap =>
      if parts.length < 2 then
        throw "missing swap parameters: memo should in SWAP:SYMBOLXX-XXX:DESTADDR:TRADE-TARGET format"
      else do
        let destination ←
          if parts.length > 2 && (parts.getD 2 "").length > 0 then
            NewAddress (parts.getD 2 "")
          else pure NoAddress
        let slip ←
          if parts.length > 3 && (parts.getD 3 "").length > 0 then
            match sdkParseUint (parts.getD 3 "") with
            | Except.ok a => pure a
            | Except.error _ =>
                throw ("swap price limit:" ++ parts.getD 3 "" ++ " is invalid")
          else pure 0
        pure (.swap ⟨.txSwap, asset⟩ destination slip)
  | .txOutbound =>
      if parts.length < 2 then
        throw "not enough parameters"
      else do
        let txID ← NewTxID (parts.getD 1 "")
        pure (.outbound ⟨.txUnknown, Asset.empty⟩ txID)
  | .txRefund =>
      if parts.length < 2 then
        throw "not enough parameters"
      else do
        let txID ← NewTxID (parts.getD 1 "")
        pure (.refund ⟨.txUnknown, Asset.empty⟩ txID)
  | .txBond =>
      if parts.length < 2 then
        throw "not enough parameters"
      else do
        let addr ← AccAddressFromBech32 (parts.getD 1 "")
        pure (.bond ⟨.txBond, Asset.empty⟩ addr)
  | .txYggdrasilFund => pure (.yggdrasilFund ⟨.txYggdrasilFund, Asset.empty⟩)
  | .txYggdrasilReturn => pure (.yggdrasilReturn ⟨.txYggdrasilReturn, Asset.empty⟩)
  | .txReserve => pure (.reserve ⟨.txYggdrasilReturn, Asset.empty⟩)
  | .txMigrate =>
      if parts.length < 2 then
        throw "not enough parameters"
      else
        match parseInt64 (parts.getD 1 "") with
        | Except.ok blockHeight => pure (.migrate ⟨.txMigrate, Asset.empty⟩ blockHeight)
        | Except.error _ =>
            throw ("fail to convert (" ++ parts.getD 1 "" ++ ") to a valid block height")
  | .txRagnarok =>
      if parts.length < 2 then
        throw "not enough parameters"
      else
        match parseInt64 (parts.getD 1 "") with
        | Except.ok blockHeight => pure (.ragnarok ⟨.txRagnarok, Asset.empty⟩ blockHeight)
        | Except.error _ =>
            throw ("fail to convert (" ++ parts.getD 1 "" ++ ") to a valid block height")
  | .txUnknown => throw ("TxType not supported: " ++ txToString tx)

/-- `ParseMemo` : split the memo string on colons and process the fields.
Note : the source `txReserve` case builds `ReserveMemo` with
`MemoBase{TxType: txYggdrasilReturn}`, and the `txOutbound` / `txRefund`
cases build their memos through `NewOutboundMemo` / `NewRefundMemo`,
which leave `MemoBase` at its zero value (`txUnknown`); the embedding
reproduces this faithfully. -/
def ParseMemo (memo : String) : Except String Memo :=
  if memo.length = 0 then Except.error "memo can't be empty"
  else ParseMemoParts (strSplitOn memo ':')

/-! ### Pool-unit issuance (`calculatePoolUnits`) -/

/-- Division rounded to nearest (half away from zero on naturals). -/
def roundedQuot (num den : Nat) : Nat := (2 * num + den) / (2 * den)

/-- Modelled from the spec: the implementation of `calculatePoolUnits` is
absent from `src/` (only its test `TestCalculatePoolUnits` is present).
The spec's section 4.2 defers the exact variant to the reference
implementation and its section 8 gives reference values; the variant
embedded here is the symmetric stake-unit formula
`stakerUnits = round(((R + T) * (r * T + R * t)) / (4 * R * T))`
over the post-stake balances `R = poolRune + stakeRune`,
`T = poolAsset + stakeAsset`, computed exactly with rounding to nearest,
which is the unique candidate reproducing the spec's reference values
(and the assertions of `TestCalculatePoolUnits`).  The two zero-side
guards and their messages are those asserted by the test. -/
def calculatePoolUnits (oldPoolUnits poolRune poolAsset stakeRune stakeAsset : Nat) :
    Except String (Nat × Nat) :=
  if stakeRune + poolRune = 0 then
    Except.error "total RUNE in the pool is zero"
  else if stakeAsset + poolAsset = 0 then
    Except.error "total asset in the pool is zero"
  else
    let poolRuneAfter := poolRune + stakeRune
    let poolAssetAfter := poolAsset + stakeAsset
    let nominator := (poolRuneAfter + poolAssetAfter) *
      (stakeRune * poolAssetAfter + poolRuneAfter * stakeAsset)
    let denominator := 4 * poolRuneAfter * poolAssetAfter
    let stakerUnits := roundedQuot nominator denominator
    Except.ok (oldPoolUnits + stakerUnits, stakerUnits)

/-! ### Vaults and the vault manager (source: `VaultMgr`) -/

/-- Vault status constants. -/
inductive VaultStatus where
  | ActiveVault
  | RetiringVault
  | InactiveVault
  deriving DecidableEq

/-- Vault type constants (`UnknownVault` is the zero value). -/
inductive VaultType where
  | UnknownVault
  | AsgardVault
  | YggdrasilVault
  deriving DecidableEq

/-- A held coin: an asset together with an amount of base units. -/
structure Coin where
  asset : Asset
  amount : Nat
  deriving DecidableEq

/-- A vault (spec section 3), with pubkeys as opaque strings. -/
structure Vault where
  pubKey : String
  status : VaultStatus
  vaultType : VaultType
  membership : List String
  coins : List Coin
  statusSince : Int
  deriving DecidableEq

/-- Modelled from the spec: `Vault.HasFunds` is absent from `src/`; a
vault has funds when some held coin has a positive amount. -/
def Vault.HasFunds (v : Vault) : Bool := v.coins.any (fun c => c.amount > 0)

/-- Modelled from the spec: `Vault.GetCoin` is absent from `src/`; the
spec types `coins` as `mapping<Asset, U>`, so the lookup of an asset the
vault does not hold yields a zero amount. -/
def Vault.GetCoin (v : Vault) (a : Asset) : Coin :=
  match v.coins.find? (fun c => c.asset == a) with
  | some c => c
  | none => ⟨a, 0⟩

/-- Modelled from the spec: `PubKey.GetAddress` derives a vault's address
on a chain from its public key (external threshold-signature crypto);
modelled as an abstract injective pairing of chain and pubkey. -/
def pkGetAddress (pk chain : String) : String := chain ++ "/" ++ pk

/-- `common.BlankTxID` : the sentinel in-hash used for system-generated
outbounds such as migrations (opaque to every claim). -/
def BlankTxID : String := ""

/-- `TxOutItem` (spec section 3), as filled in by the vault manager. -/
structure TxOutItem where
  chain : String
  toAddress : String
  vaultPubKey : String
  coin : Coin
  memo : String
  inHash : String
  deriving DecidableEq

/-- Go's `uint64(n)` conversion of an `int64`: reduction modulo `2^64`. -/
def goUint64 (i : Int) : Nat := (i % (2 ^ 64 : Int)).toNat

/-- The receiver-selection loop of `VaultMgr.EndBlock` : starting from
the first Active asgard, walk the whole list and switch to any vault
holding strictly less of the asset; returns the chosen balance and
pubkey. -/
def selectReceiver (active : List Vault) (asset : Asset) : Nat × String :=
  match active with
  | [] => (0, "")
  | v0 :: _ =>
      active.foldl
        (fun acc asgard =>
          if acc.1 > (asgard.GetCoin asset).amount then
            ((asgard.GetCoin asset).amount, asgard.pubKey)
          else acc)
        ((v0.GetCoin asset).amount, v0.pubKey)

/-- The migration `TxOutItem` that `VaultMgr.EndBlock` builds for one
coin of a retiring vault: receiver from `selectReceiver`, round number
`nth = (height - statusSince)/interval + 1` (Go truncated division),
amount `coin * nth / 5` for the first four rounds and the full remaining
amount from round five on. -/
def migrationItem (blockHeight migrateInterval : Int) (active : List Vault)
    (vault : Vault) (coin : Coin) : TxOutItem :=
  let pk := (selectReceiver active coin.asset).2
  let addr := pkGetAddress pk coin.asset.chain
  let nth := (blockHeight - vault.statusSince).tdiv migrateInterval + 1
  let amt := if nth < 5 then coin.amount * goUint64 nth / 5 else coin.amount
  { chain := coin.asset.chain
    toAddress := addr
    vaultPubKey := vault.pubKey
    coin := ⟨coin.asset, amt⟩
    memo := "migrate"
    inHash := BlankTxID }

/-- The migration body of `VaultMgr.EndBlock` at non-genesis heights:
with no Active asgard nothing moves; otherwise each Retiring vault is
deleted when it has no funds left and, on blocks where
`(height - statusSince) % interval == 0` (Go truncated remainder),
enqueues one migration item per held coin.  Returns deleted vault
pubkeys and the enqueued items. -/
def vaultEndBlockMigrate (blockHeight migrateInterval : Int)
    (active retiring : List Vault) : List String × List TxOutItem :=
  if active.isEmpty then ([], [])
  else
    retiring.foldl
      (fun acc vault =>
        if !vault.HasFunds then (acc.1 ++ [vault.pubKey], acc.2)
        else if (blockHeight - vault.statusSince).tmod migrateInterval == 0 then
          (acc.1, acc.2 ++ vault.coins.map (migrationItem blockHeight migrateInterval active vault))
        else acc)
      ([], [])

/-! ### Genesis setup and keygen (sources: `VaultMgr.processGenesisSetup`,
`VaultMgr.TriggerKeygen`, `KVStore.GetKeygens`) -/

/-- Node account status constants. -/
inductive NodeStatus where
  | Unknown
  | WhiteListed
  | Standby
  | Ready
  | Active
  | Disabled
  deriving DecidableEq

/-- The slice of `NodeAccount` the claims touch. -/
structure NodeAccount where
  nodeAddress : String
  status : NodeStatus
  pubKeySecp256k1 : String
  bond : Nat
  deriving DecidableEq

/-- `Keygens` : scheduled keygen ceremonies, `{height, groups}`. -/
structure Keygens where
  height : Nat
  keygens : List (List String)
  deriving DecidableEq

/-- Modelled from the spec: `NewKeygens` is absent from `src/`; it builds
an empty `Keygens` record at the given height (its `Keygens` list is
assigned afterwards by `TriggerKeygen`). -/
def NewKeygens (height : Nat) : Keygens := ⟨height, []⟩

/-- Modelled from the spec: `genesisBlockHeight` is defined outside
`src/`; the spec's genesis height is block 1. -/
def genesisBlockHeight : Int := 1

/-- `VaultMgr.TriggerKeygen` : record a `Keygens` entry at the current
height holding one group with all the given nodes' secp256k1 pubkeys. -/
def TriggerKeygen (blockHeight : Int) (nas : List NodeAccount) : Keygens :=
  { NewKeygens blockHeight.toNat with
      keygens := [nas.map (fun n => n.pubKeySecp256k1)] }

/-- Modelled from the spec and the call site in `processGenesisSetup` :
`NewVault` constructs a vault with the given creation height, status,
type and pubkey, no members and no coins. -/
def NewVault (statusSince : Int) (status : VaultStatus) (typ : VaultType)
    (pk : String) : Vault :=
  { pubKey := pk, status := status, vaultType := typ, membership := [],
    coins := [], statusSince := statusSince }

/-- `VaultMgr.processGenesisSetup` : its effect on state, returned as an
optionally created asgard vault and an optionally recorded `Keygens`
entry (the source writes them through `SetVault` / `SetKeygens`). -/
def processGenesisSetup (blockHeight : Int) (asgards : List Vault)
    (active : List NodeAccount) : Except String (Option Vault × Option Keygens) :=
  if blockHeight ≠ genesisBlockHeight then Except.ok (none, none)
  else if !asgards.isEmpty then Except.ok (none, none)
  else
    match active with
    | [] => Except.error "no active accounts,cannot proceed"
    | [na] =>
        let vault := NewVault 0 .ActiveVault .AsgardVault na.pubKeySecp256k1
        Except.ok (some { vault with membership := [na.pubKeySecp256k1] }, none)
    | _ => Except.ok (none, some (TriggerKeygen blockHeight active))

/-- The keygen prefix store, abstracted: each record is keyed by height
and holds the outcome of decoding the stored bytes
(`cdc.UnmarshalBinaryBare`), either the decoded value or a failure. -/
abbrev KeygenStore := List (Nat × Except String Keygens)

/-- `KVStore.GetKeygens` : a miss yields an empty `Keygens` at the
requested height with no error; a hit decodes the stored record and
fails only when decoding fails. -/
def KVStoreGetKeygens (store : KeygenStore) (height : Nat) : Except String Keygens :=
  match store.lookup height with
  | none => Except.ok (NewKeygens height)
  | some (Except.ok keygens) => Except.ok keygens
  | some (Except.error e) => Except.error ("fail to unmarshal keygens: " ++ e)

/-! ### Yggdrasil return (source: `YggdrasilHandler.handleYggdrasilReturn`) -/

/-- The slice of a pool the slash valuation needs. -/
structure Pool where
  asset : Asset
  balanceRune : Nat
  balanceAsset : Nat
  deriving DecidableEq

/-- Modelled from the spec: the RUNE asset (the native settlement asset;
on this codebase a BNB-chain asset). -/
def RuneAsset : Asset := ⟨"BNB", "RUNE-B1A", "RUNE"⟩

/-- Modelled from the spec: the value of an asset amount in RUNE at the
current pool price (`amount * balance_rune / balance_asset`; RUNE at
par; zero for an unknown pool). -/
def runeValue (pools : List Pool) (a : Asset) (amount : Nat) : Nat :=
  if a == RuneAsset then amount
  else
    match pools.find? (fun p => p.asset == a) with
    | some p => amount * p.balanceRune / p.balanceAsset
    | none => 0

/-- Modelled from the spec: `slashNodeAccount` is absent from `src/`;
the node's bond is slashed by the coin amount valued in RUNE via the
pool price. -/
def slashNodeAccount (pools : List Pool) (na : NodeAccount) (a : Asset)
    (amount : Nat) : NodeAccount :=
  { na with bond := na.bond - runeValue pools a amount }

/-- The observed transaction carried in a yggdrasil message. -/
structure Tx where
  id : String
  chain : String
  toAddress : String
  coins : List Coin
  deriving DecidableEq

/-- `MsgYggdrasil` (spec section 6). -/
structure MsgYggdrasil where
  pubKey : String
  addFunds : Bool
  coins : List Coin
  tx : Tx
  deriving DecidableEq

/-- `Vaults.HasAddress` : whether some vault's address on the chain
equals the given address (derivation via `pkGetAddress`). -/
def vaultsHasAddress (vaults : List Vault) (chain addr : String) : Bool :=
  vaults.any (fun v => pkGetAddress v.pubKey chain == addr)

/-- The outcome of the yggdrasil-vault branch of `handleYggdrasilReturn`:
the node account after any slashes, and whether the bond-refund path ran. -/
structure YggReturnResult where
  nodeAccount : NodeAccount
  refunded : Bool
  deriving DecidableEq

/-- The yggdrasil-vault branch of `YggdrasilHandler.handleYggdrasilReturn`:
when the recipient is not an Active asgard address the owning node is
slashed once per coin of the transaction; afterwards the bond is
refunded only when the node is not Active. -/
def handleYggdrasilReturn (activeAsgards : List Vault) (pools : List Pool)
    (na : NodeAccount) (msg : MsgYggdrasil) : YggReturnResult :=
  let isAsgardReceipient := vaultsHasAddress activeAsgards msg.tx.chain msg.tx.toAddress
  let na1 :=
    if isAsgardReceipient then na
    else msg.tx.coins.foldl (fun acc c => slashNodeAccount pools acc c.asset c.amount) na
  if na1.status == NodeStatus.Active then ⟨na1, false⟩
  else ⟨na1, true⟩

/-! ### Sample values used by concrete witnesses -/

/-- The BTC asset. -/
def btcAsset : Asset := ⟨"BTC", "BTC", "BTC"⟩

/-- A retiring asgard vault holding 1000 BTC, retiring since height 0. -/
def sampleRetiringVault : Vault :=
  { pubKey := "retiring-pk", status := .RetiringVault, vaultType := .AsgardVault,
    membership := [], coins := [⟨btcAsset, 1000 * One⟩], statusSince := 0 }

/-- An active asgard vault holding no BTC. -/
def sampleActiveVault : Vault :=
  { pubKey := "active-pk", status := .ActiveVault, vaultType := .AsgardVault,
    membership := [], coins := [], statusSince := 0 }

/-- An active asgard vault holding 500 BTC. -/
def sampleAsgardBig : Vault :=
  { pubKey := "big-pk", status := .ActiveVault, vaultType := .AsgardVault,
    membership := [], coins := [⟨btcAsset, 500 * One⟩], statusSince := 0 }

/-- An active asgard vault holding 100 BTC. -/
def sampleAsgardSmall : Vault :=
  { pubKey := "small-pk", status := .ActiveVault, vaultType := .AsgardVault,
    membership := [], coins := [⟨btcAsset, 100 * One⟩], statusSince := 0 }

/-! ### Theorems -/

/-- Binding a success in the `Except` monad applies the continuation. -/
theorem exceptBindOk {α β : Type} (x : α) (f : α → Except String β) :
    (Except.ok x >>= f : Except String β) = f x := rfl

/-- C1: `calculatePoolUnits` matches the spec's reference values: a first
symmetric stake of `100*ONE` RUNE and `100*ONE` asset into an empty pool
yields pool units `100*ONE` and staker units `100*ONE`, and a second
stake of `345*ONE` RUNE and `234*ONE` asset into the pool
`{500*ONE, 500*ONE, 500*ONE}` yields pool units `78_701_684_859` and
staker units `28_701_684_859`. -/
theorem calculatePoolUnits_reference_values :
    calculatePoolUnits 0 0 0 (100 * One) (100 * One) =
      Except.ok (100 * One, 100 * One) ∧
    calculatePoolUnits (500 * One) (500 * One) (500 * One) (345 * One) (234 * One) =
      Except.ok (78701684859, 28701684859) :=
  ⟨rfl, rfl⟩

/-- C4: a first stake with exactly one side zero into an empty pool is
rejected by `calculatePoolUnits` with message "total RUNE in the pool is
zero" when the RUNE side is zero and "total asset in the pool is zero"
when the asset side is zero; no units are issued (the result is an
error, not a unit grant). -/
theorem calculatePoolUnits_empty_pool_one_sided (r a : Nat)
    (h : (r = 0 ∧ 0 < a) ∨ (0 < r ∧ a = 0)) :
    calculatePoolUnits 0 0 0 r a =
      Except.error (if r = 0 then "total RUNE in the pool is zero"
                    else "total asset in the pool is zero") := by
  rcases h with ⟨hr, _⟩ | ⟨hr, ha⟩
  · subst hr
    simp [calculatePoolUnits]
  · subst ha
    have hr' : r ≠ 0 := Nat.pos_iff_ne_zero.mp hr
    simp [calculatePoolUnits, hr']

/-- C4 witness: the two one-sided first stakes of `TestCalculatePoolUnits`. -/
theorem calculatePoolUnits_empty_pool_one_sided_witness :
    calculatePoolUnits 0 0 0 0 (100 * One) =
      Except.error "total RUNE in the pool is zero" ∧
    calculatePoolUnits 0 0 0 (100 * One) 0 =
      Except.error "total asset in the pool is zero" := by
  constructor
  · have h := calculatePoolUnits_empty_pool_one_sided 0 (100 * One)
      (Or.inl ⟨rfl, by decide⟩)
    simpa using h
  · have h := calculatePoolUnits_empty_pool_one_sided (100 * One) 0
      (Or.inr ⟨by decide, rfl⟩)
    simpa using h

/-- C3: the memo round trip breaks on the action kind: parsing the memo
"reserve" yields a memo whose type is `txYggdrasilReturn`, not the
reserve action (the source `txReserve` case builds `ReserveMemo` with
`MemoBase{TxType: txYggdrasilReturn}`). -/
theorem parseMemo_reserve_type_is_yggdrasil_return :
    (ParseMemo "reserve").map Memo.getType = Except.ok TxType.txYggdrasilReturn ∧
    TxType.txYggdrasilReturn ≠ TxType.txReserve :=
  ⟨rfl, by decide⟩

/-- C10: `GetKeygens` is total on lookup misses: a height with no stored
record yields an empty `Keygens` carrying that height with no error, and
an error arises only from a stored record that fails to decode. -/
theorem getKeygens_total_on_miss (store : KeygenStore) (height : Nat) :
    (store.lookup height = none →
      KVStoreGetKeygens store height = Except.ok ⟨height, []⟩) ∧
    (∀ e, KVStoreGetKeygens store height = Except.error e →
      ∃ msg, store.lookup height = some (Except.error msg)) := by
  constructor
  · intro h
    simp [KVStoreGetKeygens, h, NewKeygens]
  · intro e he
    unfold KVStoreGetKeygens at he
    match hl : store.lookup height with
    | none => rw [hl] at he; exact Except.noConfusion he
    | some (Except.ok kg) => rw [hl] at he; exact Except.noConfusion he
    | some (Except.error msg) => exact ⟨msg, rfl⟩

/-- C10 witness: a miss in the empty store at height 7. -/
theorem getKeygens_total_on_miss_witness :
    KVStoreGetKeygens [] 7 = Except.ok ⟨7, []⟩ :=
  (getKeygens_total_on_miss [] 7).1 rfl

/-- C5: an unstake memo with a basis-points field succeeds exactly when
the value lies in `(0, 10000]`; on success the `UnstakeMemo` carries the
field verbatim; an unstake memo with no asset field is rejected. -/
theorem parseMemoParts_unstake_basis_points (a s : String) (asset : Asset) (n : Nat)
    (ha : NewAsset a = Except.ok asset) (hs : sdkParseUint s = Except.ok n) :
    (ParseMemoParts ["unstake", a, s] =
        if 0 < n ∧ n ≤ MaxUnstakeBasisPoints then
          Except.ok (Memo.unstake ⟨TxType.txUnstake, asset⟩ s)
        else Except.error ("withdraw amount :" ++ s ++ " is invalid")) ∧
    ParseMemoParts ["unstake"] = Except.error "cannot parse given memo: length 1" := by
  constructor
  · have step : ParseMemoParts ["unstake", a, s] =
        (NewAsset a >>= fun asset =>
          sdkParseUint s >>= fun wa =>
            if !(wa > 0) || wa > MaxUnstakeBasisPoints then
              Except.error ("withdraw amount :" ++ s ++ " is invalid")
            else Except.ok (Memo.unstake ⟨TxType.txUnstake, asset⟩ s)) := rfl
    rw [step, ha, exceptBindOk, hs, exceptBindOk]
    by_cases hn : 0 < n ∧ n ≤ MaxUnstakeBasisPoints
    · rw [if_pos hn]
      have hb : (!(n > 0) || n > MaxUnstakeBasisPoints) = false := by
        simp [hn.1, Nat.not_lt.mpr hn.2]
      simp [hb]
    · rw [if_neg hn]
      have hb : (!(n > 0) || n > MaxUnstakeBasisPoints) = true := by
        rcases Nat.eq_zero_or_pos n with h0 | hpos
        · subst h0; simp
        · have hgt : MaxUnstakeBasisPoints < n := by
            by_contra hle
            exact hn ⟨hpos, Nat.le_of_not_lt hle⟩
          simp [hgt]
      simp [hb]
  · rfl

/-- C5 witness: `unstake:BNB:500` parses and carries the field; the
hypotheses hold at the concrete asset and digit string. -/
theorem parseMemoParts_unstake_basis_points_witness :
    ParseMemoParts ["unstake", "BNB", "500"] =
      Except.ok (Memo.unstake ⟨TxType.txUnstake, ⟨"BNB", "BNB", "BNB"⟩⟩ "500") := by
  have h := parseMemoParts_unstake_basis_points "BNB" "500" ⟨"BNB", "BNB", "BNB"⟩ 500 rfl rfl
  rw [h.1, if_pos (by decide)]

/-- C9: a stake memo for an asset on a chain other than RUNE's chain
(BNB) fails without a third field; with one it returns a `StakeMemo`
whose destination address is the parsed third field; a stake memo for a
BNB-chain asset succeeds without any address field. -/
theorem parseMemoParts_stake_address_requirement (a s : String) (asset : Asset)
    (addr : Address) (ha : NewAsset a = Except.ok asset) :
    (asset.chain ≠ "BNB" →
      ParseMemoParts ["stake", a] =
        Except.error "invalid stake. Cannot stake to a non BNB-based pool without providing an associated address") ∧
    (asset.chain ≠ "BNB" → NewAddress s = Except.ok addr →
      ParseMemoParts ["stake", a, s] =
        Except.ok (Memo.stake ⟨TxType.txStake, asset⟩ addr)) ∧
    (asset.chain = "BNB" →
      ParseMemoParts ["stake", a] =
        Except.ok (Memo.stake ⟨TxType.txStake, asset⟩ NoAddress)) := by
  have step2 : ParseMemoParts ["stake", a] =
      (NewAsset a >>= fun asset =>
        if asset.chain == "BNB" then
          Except.ok (Memo.stake ⟨TxType.txStake, asset⟩ NoAddress)
        else
          Except.error "invalid stake. Cannot stake to a non BNB-based pool without providing an associated address") := rfl
  have step3 : ParseMemoParts ["stake", a, s] =
      (NewAsset a >>= fun asset =>
        if asset.chain == "BNB" then
          Except.ok (Memo.stake ⟨TxType.txStake, asset⟩ NoAddress)
        else
          NewAddress s >>= fun addr =>
            Except.ok (Memo.stake ⟨TxType.txStake, asset⟩ addr)) := rfl
  refine ⟨?_, ?_, ?_⟩
  · intro hc
    rw [step2, ha, exceptBindOk]
    simp [beq_eq_false_iff_ne.mpr hc]
  · intro hc haddr
    rw [step3, ha, exceptBindOk]
    simp only [beq_eq_false_iff_ne.mpr hc, Bool.false_eq_true, if_false]
    rw [haddr, exceptBindOk]
  · intro hc
    rw [step2, ha, exceptBindOk]
    simp [hc]

/-- C9 witness: a BTC-chain stake memo with an address parses to a
`StakeMemo` carrying that address. -/
theorem parseMemoParts_stake_address_requirement_witness :
    ParseMemoParts ["stake", "BTC.BTC", "bc1addr"] =
      Except.ok (Memo.stake ⟨TxType.txStake, ⟨"BTC", "BTC", "BTC"⟩⟩ ⟨"bc1addr"⟩) := by
  have h := parseMemoParts_stake_address_requirement "BTC.BTC" "bc1addr"
    ⟨"BTC", "BTC", "BTC"⟩ ⟨"bc1addr"⟩ rfl
  exact h.2.1 (by decide) rfl

/-- C6: genesis vault setup: at height 1 with no asgard vault and exactly
one active node, a single Active asgard vault is created whose membership
is exactly that node's pubkey; with more than one active node a `Keygens`
entry at the current height with all active pubkeys is recorded and no
vault is created; with an existing asgard vault, or at any other height,
nothing happens. -/
theorem processGenesisSetup_spec (blockHeight : Int) (asgards : List Vault)
    (active : List NodeAccount) :
    (blockHeight ≠ 1 →
      processGenesisSetup blockHeight asgards active = Except.ok (none, none)) ∧
    (asgards ≠ [] →
      processGenesisSetup blockHeight asgards active = Except.ok (none, none)) ∧
    (∀ na, blockHeight = 1 → asgards = [] → active = [na] →
      processGenesisSetup blockHeight asgards active =
        Except.ok (some { pubKey := na.pubKeySecp256k1, status := .ActiveVault,
                          vaultType := .AsgardVault,
                          membership := [na.pubKeySecp256k1], coins := [],
                          statusSince := 0 }, none)) ∧
    (blockHeight = 1 → asgards = [] → 1 < active.length →
      processGenesisSetup blockHeight asgards active =
        Except.ok (none, some ⟨1, [active.map (fun n => n.pubKeySecp256k1)]⟩)) := by
  refine ⟨?_, ?_, ?_, ?_⟩
  · intro h
    simp [processGenesisSetup, genesisBlockHeight, h]
  · intro h
    match asgards with
    | [] => exact absurd rfl h
    | v :: tl =>
        by_cases hb : blockHeight = 1
        · subst hb; rfl
        · simp [processGenesisSetup, genesisBlockHeight, hb]
  · intro na hb hasg hact
    subst hb; subst hasg; subst hact
    rfl
  · intro hb hasg hlen
    subst hb; subst hasg
    match active with
    | [] => simp at hlen
    | [na] => simp at hlen
    | x :: y :: tl => rfl

/-- C6 witness: two active nodes at height 1 trigger a keygen of both
pubkeys; one active node yields the single-member vault. -/
theorem processGenesisSetup_spec_witness :
    processGenesisSetup 1 [] [⟨"n1", .Active, "pk1", 0⟩, ⟨"n2", .Active, "pk2", 0⟩] =
      Except.ok (none, some ⟨1, [["pk1", "pk2"]]⟩) ∧
    processGenesisSetup 1 [] [⟨"n1", .Active, "pk1", 0⟩] =
      Except.ok (some { pubKey := "pk1", status := .ActiveVault,
                        vaultType := .AsgardVault, membership := ["pk1"],
                        coins := [], statusSince := 0 }, none) := by
  constructor
  · exact (processGenesisSetup_spec 1 []
      [⟨"n1", .Active, "pk1", 0⟩, ⟨"n2", .Active, "pk2", 0⟩]).2.2.2 rfl rfl (by decide)
  · exact (processGenesisSetup_spec 1 [] [⟨"n1", .Active, "pk1", 0⟩]).2.2.1
      ⟨"n1", .Active, "pk1", 0⟩ rfl rfl rfl

/-- Folding the per-coin slash over a coin list subtracts the summed RUNE
values from the bond and leaves every other field unchanged. -/
theorem slash_foldl_spec (pools : List Pool) (coins : List Coin) (na : NodeAccount) :
    (coins.foldl (fun acc c => slashNodeAccount pools acc c.asset c.amount) na).bond
      = na.bond - (coins.map (fun c => runeValue pools c.asset c.amount)).sum ∧
    (coins.foldl (fun acc c => slashNodeAccount pools acc c.asset c.amount) na).status
      = na.status := by
  induction coins generalizing na with
  | nil => simp
  | cons c tl ih =>
      simp only [List.foldl_cons, List.map_cons, List.sum_cons]
      constructor
      · rw [(ih (slashNodeAccount pools na c.asset c.amount)).1]
        simp [slashNodeAccount, Nat.sub_sub]
      · rw [(ih (slashNodeAccount pools na c.asset c.amount)).2]; rfl

/-- C7: a yggdrasil return addressed outside the Active asgard addresses
slashes the owning node once per coin of the transaction, each coin
valued in RUNE via the pool price; when the recipient is an Active
asgard address no slash occurs; and the bond-refund path runs exactly
when the node is not in Active status. -/
theorem yggdrasilReturn_slash_and_refund (asgards : List Vault) (pools : List Pool)
    (na : NodeAccount) (msg : MsgYggdrasil) :
    (vaultsHasAddress asgards msg.tx.chain msg.tx.toAddress = true →
      (handleYggdrasilReturn asgards pools na msg).nodeAccount = na) ∧
    (vaultsHasAddress asgards msg.tx.chain msg.tx.toAddress = false →
      (handleYggdrasilReturn asgards pools na msg).nodeAccount.bond =
        na.bond - (msg.tx.coins.map (fun c => runeValue pools c.asset c.amount)).sum) ∧
    ((handleYggdrasilReturn asgards pools na msg).refunded = true ↔
      na.status ≠ NodeStatus.Active) := by
  have hfold := slash_foldl_spec pools msg.tx.coins na
  refine ⟨?_, ?_, ?_⟩
  · intro hb
    simp [handleYggdrasilReturn, hb]
    by_cases hs : na.status = NodeStatus.Active <;> simp [hs]
  · intro hb
    simp only [handleYggdrasilReturn, hb, Bool.false_eq_true, if_false]
    by_cases hs :
        (msg.tx.coins.foldl (fun acc c => slashNodeAccount pools acc c.asset c.amount)
          na).status == NodeStatus.Active <;>
      simp [hs, hfold.1]
  · simp only [handleYggdrasilReturn]
    by_cases hb : vaultsHasAddress asgards msg.tx.chain msg.tx.toAddress
    · simp only [hb, if_true]
      by_cases hs : na.status = NodeStatus.Active <;> simp [hs]
    · simp only [Bool.not_eq_true] at hb
      simp only [hb, Bool.false_eq_true, if_false]
      by_cases hs : na.status = NodeStatus.Active <;>
        simp [hs, hfold.2]

/-- C7 witness: a return to a non-asgard address with one 100-BTC coin at
a pool price of 2 RUNE per BTC slashes the 1000-RUNE bond to 800. -/
theorem yggdrasilReturn_slash_and_refund_witness :
    (handleYggdrasilReturn [] [⟨btcAsset, 2000, 1000⟩]
        ⟨"node", .Standby, "npk", 1000⟩
        ⟨"npk", false, [], ⟨"txid", "BTC", "somewhere", [⟨btcAsset, 100⟩]⟩⟩).nodeAccount.bond
      = 800 := by
  have h := yggdrasilReturn_slash_and_refund [] [⟨btcAsset, 2000, 1000⟩]
    ⟨"node", .Standby, "npk", 1000⟩
    ⟨"npk", false, [], ⟨"txid", "BTC", "somewhere", [⟨btcAsset, 100⟩]⟩⟩
  rw [h.2.1 rfl]
  rfl

/-- A Go `uint64` cast of a small nonnegative `int64` is its magnitude. -/
theorem goUint64_small (n : Int) (h0 : 0 ≤ n) (h1 : n < 2 ^ 64) :
    goUint64 n = n.toNat := by
  unfold goUint64
  rw [Int.emod_eq_of_lt h0 h1]

/-- C2 (amended): on every migration tick — every block where
`(now - statusSince)` is a nonnegative multiple of the interval — the
round number is `nth = 1 + (now - statusSince)/interval` and each held
coin's enqueued amount is `balance * nth / 5` when `nth < 5` and the
full remaining balance when `nth >= 5`; hence with balance 1000 the tick
at `statusSince` itself moves 200, the tick one interval later moves 2/5
of the then-remaining balance, and from the tick with `nth = 5` on the
full remaining balance moves. -/
theorem vaultEndBlockMigrate_schedule (blockHeight interval : Int)
    (active : List Vault) (v : Vault)
    (hact : active ≠ [])
    (hfunds : v.HasFunds = true)
    (hdiff : 0 ≤ blockHeight - v.statusSince)
    (hbound : blockHeight - v.statusSince < 2 ^ 63)
    (hint : 0 < interval)
    (htick : (blockHeight - v.statusSince).tmod interval = 0) :
    (vaultEndBlockMigrate blockHeight interval active [v]).2.map (fun t => t.coin.amount) =
      v.coins.map (fun c =>
        if (blockHeight - v.statusSince).tdiv interval + 1 < 5 then
          c.amount * ((blockHeight - v.statusSince).tdiv interval + 1).toNat / 5
        else c.amount) := by
  have hq0 : 0 ≤ (blockHeight - v.statusSince).tdiv interval :=
    Int.tdiv_nonneg hdiff (le_of_lt hint)
  have hqle : (blockHeight - v.statusSince).tdiv interval ≤ blockHeight - v.statusSince := by
    rw [Int.tdiv_eq_ediv hdiff (le_of_lt hint)]
    exact Int.ediv_le_self interval hdiff
  have hsmall : goUint64 ((blockHeight - v.statusSince).tdiv interval + 1) =
      ((blockHeight - v.statusSince).tdiv interval + 1).toNat := by
    apply goUint64_small <;> omega
  rcases active with _ | ⟨a0, arest⟩
  · exact absurd rfl hact
  · simp only [vaultEndBlockMigrate, List.isEmpty_cons, Bool.false_eq_true, if_false,
      List.foldl_cons, List.foldl_nil, hfunds, Bool.not_true, htick,
      beq_self_eq_true, if_true, List.nil_append, List.map_map]
    refine List.map_congr_left ?_
    intro c _
    simp only [Function.comp, migrationItem, hsmall]

/-- C2 counterexample: a Retiring vault holding 1000 BTC with
`statusSince = 0` and interval 100 enqueues 400 BTC — not the claimed
200 BTC — at block 100, the first block one interval after retirement. -/
theorem migrate_first_interval_amount_cex :
    (vaultEndBlockMigrate 100 100 [sampleActiveVault] [sampleRetiringVault]).2.map
        (fun t => t.coin.amount) = [400 * One] ∧
    (400 * One : Nat) ≠ 200 * One :=
  ⟨rfl, by decide⟩

/-- C2 witness: at block 300 (round `nth = 4`) the vault's 1000 BTC coin
yields an 800 BTC outbound. -/
theorem vaultEndBlockMigrate_schedule_witness :
    (vaultEndBlockMigrate 300 100 [sampleActiveVault] [sampleRetiringVault]).2.map
        (fun t => t.coin.amount) = [800 * One] := by
  have h := vaultEndBlockMigrate_schedule 300 100 [sampleActiveVault]
    sampleRetiringVault (by simp) rfl (by decide) (by decide) (by decide) (by decide)
  rw [h]
  rfl

/-- The receiver-selection fold keeps a pair that is either the initial
one or taken from the list, never exceeds the initial balance, and ends
at most every listed vault's balance of the asset. -/
theorem selectFold_spec (asset : Asset) (l : List Vault) :
    ∀ (b : Nat) (p : String),
      ((l.foldl (fun acc asgard =>
          if acc.1 > (asgard.GetCoin asset).amount then
            ((asgard.GetCoin asset).amount, asgard.pubKey)
          else acc) (b, p)) = (b, p) ∨
        ∃ w ∈ l, (l.foldl (fun acc asgard =>
          if acc.1 > (asgard.GetCoin asset).amount then
            ((asgard.GetCoin asset).amount, asgard.pubKey)
          else acc) (b, p)) = ((w.GetCoin asset).amount, w.pubKey)) ∧
      (l.foldl (fun acc asgard =>
          if acc.1 > (asgard.GetCoin asset).amount then
            ((asgard.GetCoin asset).amount, asgard.pubKey)
          else acc) (b, p)).1 ≤ b ∧
      ∀ w ∈ l, (l.foldl (fun acc asgard =>
          if acc.1 > (asgard.GetCoin asset).amount then
            ((asgard.GetCoin asset).amount, asgard.pubKey)
          else acc) (b, p)).1 ≤ (w.GetCoin asset).amount := by
  induction l with
  | nil =>
      intro b p
      simp
  | cons v tl ih =>
      intro b p
      simp only [List.foldl_cons]
      by_cases hv : b > (v.GetCoin asset).amount
      · rw [if_pos hv]
        obtain ⟨ho, hle, hall⟩ := ih ((v.GetCoin asset).amount) v.pubKey
        refine ⟨?_, le_trans hle (le_of_lt hv), ?_⟩
        · rcases ho with ho | ⟨w, hw, hw2⟩
          · exact Or.inr ⟨v, List.mem_cons_self v tl, ho⟩
          · exact Or.inr ⟨w, List.mem_cons_of_mem v hw, hw2⟩
        · intro w hw
          rcases List.mem_cons.mp hw with rfl | hw
          · exact hle
          · exact hall w hw
      · rw [if_neg hv]
        obtain ⟨ho, hle, hall⟩ := ih b p
        refine ⟨?_, hle, ?_⟩
        · rcases ho with ho | ⟨w, hw, hw2⟩
          · exact Or.inl ho
          · exact Or.inr ⟨w, List.mem_cons_of_mem v hw, hw2⟩
        · intro w hw
          rcases List.mem_cons.mp hw with rfl | hw
          · exact le_trans hle (Nat.le_of_not_lt hv)
          · exact hall w hw

/-- C8: at a migration tick the item built for each held coin is among
the enqueued outbounds; its receiver is an Active asgard whose balance
of the coin's asset is minimal among all Active asgards; its destination
is that vault's address on the coin's chain; and it records the Retiring
vault as `vault_pub_key` with memo "migrate". -/
theorem migration_receiver_selection (blockHeight interval : Int)
    (v0 : Vault) (rest : List Vault) (vault : Vault) (coin : Coin)
    (hmem : coin ∈ vault.coins) (hfunds : vault.HasFunds = true)
    (htick : (blockHeight - vault.statusSince).tmod interval = 0) :
    (migrationItem blockHeight interval (v0 :: rest) vault coin ∈
        (vaultEndBlockMigrate blockHeight interval (v0 :: rest) [vault]).2) ∧
    (∃ w ∈ v0 :: rest,
        w.pubKey = (selectReceiver (v0 :: rest) coin.asset).2 ∧
        (w.GetCoin coin.asset).amount = (selectReceiver (v0 :: rest) coin.asset).1) ∧
    (∀ w ∈ v0 :: rest,
        (selectReceiver (v0 :: rest) coin.asset).1 ≤ (w.GetCoin coin.asset).amount) ∧
    (migrationItem blockHeight interval (v0 :: rest) vault coin).toAddress =
      pkGetAddress (selectReceiver (v0 :: rest) coin.asset).2 coin.asset.chain ∧
    (migrationItem blockHeight interval (v0 :: rest) vault coin).vaultPubKey =
      vault.pubKey ∧
    (migrationItem blockHeight interval (v0 :: rest) vault coin).memo = "migrate" ∧
    (migrationItem blockHeight interval (v0 :: rest) vault coin).chain =
      coin.asset.chain := by
  obtain ⟨ho, _, hall⟩ := selectFold_spec coin.asset (v0 :: rest)
    ((v0.GetCoin coin.asset).amount) v0.pubKey
  have hsel : selectReceiver (v0 :: rest) coin.asset =
      (v0 :: rest).foldl (fun acc asgard =>
        if acc.1 > (asgard.GetCoin coin.asset).amount then
          ((asgard.GetCoin coin.asset).amount, asgard.pubKey)
        else acc) ((v0.GetCoin coin.asset).amount, v0.pubKey) := rfl
  refine ⟨?_, ?_, ?_, rfl, rfl, rfl, rfl⟩
  · simp only [vaultEndBlockMigrate, List.isEmpty_cons, Bool.false_eq_true, if_false,
      List.foldl_cons, List.foldl_nil, hfunds, Bool.not_true, htick,
      beq_self_eq_true, if_true, List.nil_append]
    exact List.mem_map_of_mem _ hmem
  · rw [hsel]
    rcases ho with ho | ⟨w, hw, hw2⟩
    · exact ⟨v0, List.mem_cons_self v0 rest, by rw [ho], by rw [ho]⟩
    · exact ⟨w, hw, by rw [hw2], by rw [hw2]⟩
  · intro w hw
    rw [hsel]
    exact hall w hw

/-- C8 witness: with two Active asgards holding 500 and 100 BTC, the
migration item goes to the address of the minimal (100 BTC) vault; the
chosen balance is at most the larger vault's. -/
theorem migration_receiver_selection_witness :
    (migrationItem 100 100 [sampleAsgardBig, sampleAsgardSmall]
        sampleRetiringVault ⟨btcAsset, 1000 * One⟩).toAddress =
      pkGetAddress "small-pk" "BTC" ∧
    (selectReceiver [sampleAsgardBig, sampleAsgardSmall] btcAsset).1 ≤
      (sampleAsgardBig.GetCoin btcAsset).amount := by
  have h := migration_receiver_selection 100 100 sampleAsgardBig [sampleAsgardSmall]
    sampleRetiringVault ⟨btcAsset, 1000 * One⟩
    (List.mem_cons_self _ _) rfl (by decide)
  constructor
  · rw [h.2.2.2.1]
    rfl
  · exact h.2.2.1 sampleAsgardBig (List.mem_cons_self _ _)

end Thornode
